import Mathlib

set_option maxRecDepth 4000

/-!
Verification of the trading-hooks-risc0 repository.

The repository contains a RISC Zero guest program
(`guests/compliance/src/main.rs`) and a publisher CLI binary
(`apps/src/main.rs`).  The guest reads an ABI-encoded tuple
`(Address, B256, bool, bool)` from stdin, computes
`allowed = kyc_passed && aml_passed`, ABI-encodes `(Address, B256, bool)`
and commits it as the journal.  The publisher encodes a number, submits a
proof request to the Boundless market, waits for fulfillment, calls the
EvenNumber contract's `set` function with the number and the seal, and
reads the value back.

Bytes are modelled as natural numbers (`< 256` where it matters), byte
buffers as `List Nat`.  The external `alloy_sol_types` ABI encoder and
decoder are modelled from the Solidity ABI specification for the static
tuples used by this repository: each component occupies one 32-byte word,
addresses are left-padded with 12 zero bytes, booleans are encoded as a
word whose last byte is 0 or 1, and decoding succeeds exactly on canonical
encodings of the expected shape.
-/

/-- Byte encoding of a boolean in the last byte of its ABI word. -/
def boolByte (b : Bool) : Nat := if b then 1 else 0

/-- The 32-byte ABI word encoding a boolean: 31 zero bytes then 0 or 1. -/
def word32OfBool (b : Bool) : List Nat :=
  List.replicate 31 0 ++ [boolByte b]

/-- Models `<(Address, B256, bool, bool)>::abi_encode` from `alloy_sol_types`
(used in `guests/tests/compliance.rs`): four 32-byte head words, with the
20-byte address left-padded by 12 zero bytes. -/
def abiEncodeInput (user productId : List Nat) (kyc aml : Bool) : List Nat :=
  (List.replicate 12 0 ++ user) ++ (productId ++ (word32OfBool kyc ++ word32OfBool aml))

/-- Models `<(Address, B256, bool)>::abi_encode` from `alloy_sol_types`
(used in `guests/compliance/src/main.rs` to build the journal). -/
def abiEncodeOutput (user productId : List Nat) (allowed : Bool) : List Nat :=
  (List.replicate 12 0 ++ user) ++ (productId ++ word32OfBool allowed)

/-- Decodes one ABI boolean word: succeeds only on the canonical words for
`false` and `true`. -/
def decodeBoolWord (w : List Nat) : Option Bool :=
  if w = List.replicate 31 0 ++ [0] then some false
  else if w = List.replicate 31 0 ++ [1] then some true
  else none

/-- Models `<(Address, B256, bool, bool)>::abi_decode` from
`alloy_sol_types` (used in `guests/compliance/src/main.rs`), per the
Solidity ABI layout: the buffer must be exactly four 32-byte words, the
address word left-padded with zeros, and each boolean word canonical. -/
def abiDecodeInput (buf : List Nat) : Option (List Nat × List Nat × Bool × Bool) :=
  if buf.length = 128 then
    let w0 := buf.take 32
    let w1 := (buf.drop 32).take 32
    let w2 := (buf.drop 64).take 32
    let w3 := buf.drop 96
    if w0.take 12 = List.replicate 12 0 then
      match decodeBoolWord w2, decodeBoolWord w3 with
      | some kyc, some aml => some (w0.drop 12, w1, kyc, aml)
      | _, _ => none
    else none
  else none

/-- Models `<(Address, B256, bool)>::abi_decode` from `alloy_sol_types`
(used in `guests/tests/compliance.rs` to decode the journal). -/
def abiDecodeOutput (buf : List Nat) : Option (List Nat × List Nat × Bool) :=
  if buf.length = 96 then
    let w0 := buf.take 32
    let w1 := (buf.drop 32).take 32
    let w2 := buf.drop 64
    if w0.take 12 = List.replicate 12 0 then
      match decodeBoolWord w2 with
      | some allowed => some (w0.drop 12, w1, allowed)
      | none => none
    else none
  else none

/-- Embedding of `fn main` of `guests/compliance/src/main.rs`: reads the
input bytes, ABI-decodes `(user, product_id, kyc_passed, aml_passed)`
(the whole execution fails — `none` — when decoding fails), computes
`allowed = kyc_passed && aml_passed`, and commits the ABI encoding of
`(user, product_id, allowed)` as the journal. -/
def complianceMain (input : List Nat) : Option (List Nat) :=
  match abiDecodeInput input with
  | none => none
  | some (user, productId, kyc, aml) =>
      some (abiEncodeOutput user productId (kyc && aml))

/-- A buffer is a well-formed compliance input when it is the ABI encoding
of some 20-byte address, 32-byte product id and two booleans. -/
def isWellFormedInput (buf : List Nat) : Prop :=
  ∃ (user productId : List Nat) (kyc aml : Bool),
    user.length = 20 ∧ productId.length = 32 ∧
    buf = abiEncodeInput user productId kyc aml

/-- Timeout in seconds for the transaction to be confirmed: `TX_TIMEOUT` in
`apps/src/main.rs` is `Duration::from_secs(30)`. -/
def txTimeoutSecs : Nat := 30

/-- Poll interval in seconds that `main` in `apps/src/main.rs` passes to
`wait_for_request_fulfillment`: `Duration::from_secs(5)`. -/
def pollIntervalSecs : Nat := 5

/-- Big-endian base-256 digits of `n` in `len` bytes. -/
def natToBytesBE (len n : Nat) : List Nat :=
  (List.range len).map (fun i => n / 256 ^ (len - 1 - i) % 256)

/-- Models `U256::from(args.number).abi_encode()` from `alloy`: a single
32-byte big-endian word. -/
def abiEncodeU256 (n : Nat) : List Nat := natToBytesBE 32 n

/-- CLI arguments of the publisher: `struct Args` in `apps/src/main.rs`.
`number` is a `u32`; `storage_config` and `deployment` are opaque
configuration records for external services and are not modelled. -/
structure Args where
  number : Nat
  rpcUrl : String
  privateKey : String
  evenNumberAddress : Nat
  programUrl : Option String
  offchain : Bool
  deriving Repr, DecidableEq

/-- A fulfillment returned by the market, carrying the seal (proof bytes);
the source field `seal` is called `sealBytes` here because `seal` is a
reserved word in Lean. -/
structure Fulfillment where
  sealBytes : List Nat
  deriving Repr, DecidableEq

/-- Where the guest program of a proof request comes from: the inline
`IS_EVEN_ELF` binary, or a URL provers can download it from. -/
inductive ProgramSource
  | inlineElf
  | url (u : String)
  deriving Repr, DecidableEq

/-- A proof request as built by the publisher: a program source and the
stdin bytes for the guest. -/
structure ProofRequest where
  program : ProgramSource
  stdin : List Nat
  deriving Repr, DecidableEq

/-- Outcomes of the external calls the publisher makes, in program order.
Each field is the result the external world returns for the corresponding
call; `submitResult` carries `(request_id, expires_at)`, `broadcastResult`
and `confirmResult` carry transaction hashes, `getResult` the stored
number read back from the contract. -/
structure Env where
  clientBuildResult : Except String Unit
  submitResult : Except String (Nat × Nat)
  waitResult : Except String Fulfillment
  broadcastResult : Except String Nat
  confirmResult : Except String Nat
  getResult : Except String Nat

/-- One observable external action performed by the publisher. -/
inductive PubAction
  | buildClient
  | submitOnchain (req : ProofRequest)
  | waitForFulfillment (requestId pollSecs expiresAt : Nat)
  | sendSet (value : Nat) (sealBytes : List Nat)
  | watchTx (timeoutSecs : Nat)
  | getNumber
  deriving Repr, DecidableEq

/-- Embedding of `async fn main` of `apps/src/main.rs`: builds the client,
ABI-encodes `U256::from(args.number)` as the guest stdin, builds the request
from `program_url` if provided (else the inline ELF), submits it on-chain,
waits for fulfillment (poll interval 5 s, until `expires_at`), calls
`set(U256::from(args.number), fulfillment.sealBytes)`, watches the transaction
with `TX_TIMEOUT`, and reads the number back.  `U256::from` of a `u32` is
the identity on the modelled value.  Returns the ordered list of external
actions performed and the final result; anyhow's `.context(msg)` wrapping
of an error `e` is modelled as the message `msg ++ ": " ++ e`, and the `?`
operator as early return of the error. -/
def runMain (args : Args) (env : Env) : List PubAction × Except String Unit :=
  match env.clientBuildResult with
  | .error e => ([.buildClient], .error ("failed to build boundless client: " ++ e))
  | .ok () =>
    let inputBytes := abiEncodeU256 args.number
    let request : ProofRequest :=
      match args.programUrl with
      | some u => ⟨.url u, inputBytes⟩
      | none => ⟨.inlineElf, inputBytes⟩
    match env.submitResult with
    | .error e => ([.buildClient, .submitOnchain request], .error e)
    | .ok (requestId, expiresAt) =>
      match env.waitResult with
      | .error e =>
          ([.buildClient, .submitOnchain request,
            .waitForFulfillment requestId pollIntervalSecs expiresAt], .error e)
      | .ok fulfillment =>
        match env.broadcastResult with
        | .error e =>
            ([.buildClient, .submitOnchain request,
              .waitForFulfillment requestId pollIntervalSecs expiresAt,
              .sendSet args.number fulfillment.sealBytes],
             .error ("failed to broadcast tx: " ++ e))
        | .ok _ =>
          match env.confirmResult with
          | .error e =>
              ([.buildClient, .submitOnchain request,
                .waitForFulfillment requestId pollIntervalSecs expiresAt,
                .sendSet args.number fulfillment.sealBytes, .watchTx txTimeoutSecs],
               .error ("failed to confirm tx: " ++ e))
          | .ok _ =>
            match env.getResult with
            | .error e =>
                ([.buildClient, .submitOnchain request,
                  .waitForFulfillment requestId pollIntervalSecs expiresAt,
                  .sendSet args.number fulfillment.sealBytes, .watchTx txTimeoutSecs,
                  .getNumber],
                 .error ("failed to get number from contract: " ++ e))
            | .ok _ =>
                ([.buildClient, .submitOnchain request,
                  .waitForFulfillment requestId pollIntervalSecs expiresAt,
                  .sendSet args.number fulfillment.sealBytes, .watchTx txTimeoutSecs,
                  .getNumber],
                 .ok ())

/-- Process exit code: `anyhow` reports an `Err` returned from `main` with a
non-zero exit code, `Ok` exits zero. -/
def exitCode (r : Except String Unit) : Nat :=
  match r with
  | .ok _ => 0
  | .error _ => 1

/-- Modelled from the spec: the polling loop inside the external
`boundless_market` client's `wait_for_request_fulfillment`, which is not part
of this repository.  Per the spec it polls at a fixed interval (5 seconds)
until either fulfillment arrives or the request's expiry timestamp is
reached; `fulfilled t` is the market's answer when polled at time `t`. -/
def waitLoop (fulfilled : Nat → Option Fulfillment) (expiresAt now : Nat) :
    Option Fulfillment :=
  match fulfilled now with
  | some f => some f
  | none =>
      if expiresAt ≤ now then none
      else waitLoop fulfilled expiresAt (now + pollIntervalSecs)
termination_by expiresAt - now
decreasing_by
  simp only [pollIntervalSecs]
  omega

lemma length_word32OfBool (b : Bool) : (word32OfBool b).length = 32 := by
  simp [word32OfBool]

lemma decodeBoolWord_word32OfBool (b : Bool) : decodeBoolWord (word32OfBool b) = some b := by
  cases b <;> rfl

lemma decodeBoolWord_inv (w : List Nat) (b : Bool) (h : decodeBoolWord w = some b) :
    w = word32OfBool b := by
  unfold decodeBoolWord at h
  split at h
  · cases h
    simpa [word32OfBool, boolByte] using by assumption
  · split at h
    · cases h
      simpa [word32OfBool, boolByte] using by assumption
    · cases h

lemma length_abiEncodeInput (u p : List Nat) (k a : Bool)
    (hu : u.length = 20) (hp : p.length = 32) :
    (abiEncodeInput u p k a).length = 128 := by
  simp [abiEncodeInput, word32OfBool, hu, hp]

/-- Decoding a canonical encoding recovers the original fields. -/
lemma abiDecodeInput_abiEncodeInput (u p : List Nat) (k a : Bool)
    (hu : u.length = 20) (hp : p.length = 32) :
    abiDecodeInput (abiEncodeInput u p k a) = some (u, p, k, a) := by
  have h0 : ((List.replicate 12 (0 : Nat)) ++ u).length = 32 := by simp [hu]
  have htake32 : (abiEncodeInput u p k a).take 32 = List.replicate 12 0 ++ u :=
    List.take_left' h0
  have hdrop32 : (abiEncodeInput u p k a).drop 32 = p ++ (word32OfBool k ++ word32OfBool a) :=
    List.drop_left' h0
  have hdrop64 : (abiEncodeInput u p k a).drop 64 = word32OfBool k ++ word32OfBool a := by
    have := List.drop_drop 32 32 (abiEncodeInput u p k a)
    rw [show (32 + 32 : Nat) = 64 from rfl] at this
    rw [← this, hdrop32, List.drop_left' hp]
  have hdrop96 : (abiEncodeInput u p k a).drop 96 = word32OfBool a := by
    have := List.drop_drop 32 64 (abiEncodeInput u p k a)
    rw [show (64 + 32 : Nat) = 96 from rfl] at this
    rw [← this, hdrop64, List.drop_left' (length_word32OfBool k)]
  have htakeW2 : ((abiEncodeInput u p k a).drop 64).take 32 = word32OfBool k := by
    rw [hdrop64]; exact List.take_left' (length_word32OfBool k)
  have htakeW1 : ((abiEncodeInput u p k a).drop 32).take 32 = p := by
    rw [hdrop32]; exact List.take_left' hp
  have hpad : (List.replicate 12 (0 : Nat) ++ u).take 12 = List.replicate 12 0 :=
    List.take_left' (by simp)
  have hdropPad : (List.replicate 12 (0 : Nat) ++ u).drop 12 = u :=
    List.drop_left' (by simp)
  rw [abiDecodeInput]
  rw [if_pos (length_abiEncodeInput u p k a hu hp)]
  simp only [htake32, htakeW1, htakeW2, hdrop96, hpad, hdropPad,
    decodeBoolWord_word32OfBool]
  simp

/-- Inversion: a successful decode means the buffer was a canonical encoding. -/
lemma abiDecodeInput_inv (buf u p : List Nat) (k a : Bool)
    (h : abiDecodeInput buf = some (u, p, k, a)) :
    u.length = 20 ∧ p.length = 32 ∧ buf = abiEncodeInput u p k a := by
  rw [abiDecodeInput] at h
  split at h
  case isFalse => exact absurd h (by simp)
  case isTrue hlen =>
    simp only at h
    split at h
    case isFalse => exact absurd h (by simp)
    case isTrue hpad =>
      split at h
      case h_2 hk ha hne => exact absurd h (by simp)
      case h_1 kyc aml hk ha =>
        injection h with h2
        have hu : (buf.take 32).drop 12 = u := congrArg (fun t => t.1) h2
        have hp12 : (buf.drop 32).take 32 = p := congrArg (fun t => t.2.1) h2
        have hkk : kyc = k := congrArg (fun t => t.2.2.1) h2
        have haa : aml = a := congrArg (fun t => t.2.2.2) h2
        have hw2 : (buf.drop 64).take 32 = word32OfBool kyc := decodeBoolWord_inv _ _ hk
        have hw3 : buf.drop 96 = word32OfBool aml := decodeBoolWord_inv _ _ ha
        have hulen : u.length = 20 := by
          rw [← hu]; simp [hlen]
        have hplen : p.length = 32 := by
          rw [← hp12]; simp [hlen]
        refine ⟨hulen, hplen, ?_⟩
        have hsplit0 : buf = buf.take 32 ++ buf.drop 32 := (List.take_append_drop 32 buf).symm
        have hsplit1 : buf.drop 32 = (buf.drop 32).take 32 ++ buf.drop 64 := by
          have h2 := List.drop_drop 32 32 buf
          rw [show (32 + 32 : Nat) = 64 from rfl] at h2
          rw [← h2]
          exact (List.take_append_drop 32 (buf.drop 32)).symm
        have hsplit2 : buf.drop 64 = (buf.drop 64).take 32 ++ buf.drop 96 := by
          have h2 := List.drop_drop 32 64 buf
          rw [show (64 + 32 : Nat) = 96 from rfl] at h2
          rw [← h2]
          exact (List.take_append_drop 32 (buf.drop 64)).symm
        have hw0 : buf.take 32 = List.replicate 12 0 ++ u := by
          rw [← hu, ← hpad]
          exact (List.take_append_drop 12 (buf.take 32)).symm
        calc buf = buf.take 32 ++ buf.drop 32 := hsplit0
          _ = (List.replicate 12 0 ++ u) ++ ((buf.drop 32).take 32 ++ buf.drop 64) := by
              rw [← hsplit1, hw0]
          _ = (List.replicate 12 0 ++ u) ++ (p ++ ((buf.drop 64).take 32 ++ buf.drop 96)) := by
              rw [← hsplit2, hp12]
          _ = abiEncodeInput u p k a := by
              rw [hw2, hw3, hkk, haa]; rfl

lemma length_abiEncodeOutput (u p : List Nat) (b : Bool)
    (hu : u.length = 20) (hp : p.length = 32) :
    (abiEncodeOutput u p b).length = 96 := by
  simp [abiEncodeOutput, word32OfBool, hu, hp]

/-- Decoding a canonical journal encoding recovers the original fields. -/
lemma abiDecodeOutput_abiEncodeOutput (u p : List Nat) (b : Bool)
    (hu : u.length = 20) (hp : p.length = 32) :
    abiDecodeOutput (abiEncodeOutput u p b) = some (u, p, b) := by
  have h0 : ((List.replicate 12 (0 : Nat)) ++ u).length = 32 := by simp [hu]
  have htake32 : (abiEncodeOutput u p b).take 32 = List.replicate 12 0 ++ u :=
    List.take_left' h0
  have hdrop32 : (abiEncodeOutput u p b).drop 32 = p ++ word32OfBool b :=
    List.drop_left' h0
  have hdrop64 : (abiEncodeOutput u p b).drop 64 = word32OfBool b := by
    have := List.drop_drop 32 32 (abiEncodeOutput u p b)
    rw [show (32 + 32 : Nat) = 64 from rfl] at this
    rw [← this, hdrop32, List.drop_left' hp]
  have htakeW1 : ((abiEncodeOutput u p b).drop 32).take 32 = p := by
    rw [hdrop32]; exact List.take_left' hp
  have hpad : (List.replicate 12 (0 : Nat) ++ u).take 12 = List.replicate 12 0 :=
    List.take_left' (by simp)
  have hdropPad : (List.replicate 12 (0 : Nat) ++ u).drop 12 = u :=
    List.drop_left' (by simp)
  rw [abiDecodeOutput]
  rw [if_pos (length_abiEncodeOutput u p b hu hp)]
  simp only [htake32, htakeW1, hdrop64, hpad, hdropPad, decodeBoolWord_word32OfBool]
  simp

lemma waitLoop_none_of_never (fulfilled : Nat → Option Fulfillment)
    (h : ∀ t, fulfilled t = none) (expiresAt : Nat) :
    ∀ now, waitLoop fulfilled expiresAt now = none := by
  have key : ∀ m now, expiresAt - now ≤ m → waitLoop fulfilled expiresAt now = none := by
    intro m
    induction m with
    | zero =>
        intro now hle
        rw [waitLoop.eq_def, h now]
        have hx : expiresAt ≤ now := by omega
        simp [hx]
    | succ m ih =>
        intro now hle
        rw [waitLoop.eq_def, h now]
        by_cases hx : expiresAt ≤ now
        · simp [hx]
        · simp only [if_neg hx]
          exact ih (now + pollIntervalSecs) (by simp only [pollIntervalSecs]; omega)
  exact fun now => key (expiresAt - now) now le_rfl

/-- Claim C1: for every well-formed input buffer, the journal committed by
the compliance guest has its `allowed` field equal to
`kyc_passed && aml_passed`; `allowed` is `true` exactly when both flags are
`true`. -/
theorem guest_allowed_eq_kyc_and_aml (buf u p : List Nat) (k a : Bool)
    (h : abiDecodeInput buf = some (u, p, k, a)) :
    ∃ j, complianceMain buf = some j ∧
      (abiDecodeOutput j).map (fun t => t.2.2) = some (k && a) ∧
      ((k && a) = true ↔ (k = true ∧ a = true)) := by
  obtain ⟨hu, hp, hbuf⟩ := abiDecodeInput_inv buf u p k a h
  refine ⟨abiEncodeOutput u p (k && a), by simp [complianceMain, h], ?_, by simp⟩
  rw [abiDecodeOutput_abiEncodeOutput u p (k && a) hu hp]
  rfl

theorem guest_allowed_eq_kyc_and_aml_witness :
    ∃ j, complianceMain (abiEncodeInput (List.replicate 20 1) (List.replicate 32 2) true false)
        = some j ∧
      (abiDecodeOutput j).map (fun t => t.2.2) = some (true && false) ∧
      ((true && false) = true ↔ (true = true ∧ false = true)) :=
  guest_allowed_eq_kyc_and_aml _ (List.replicate 20 1) (List.replicate 32 2) true false
    (by decide)

/-- Claim C2: on a byte buffer, the compliance guest fails (commits no
journal) exactly when the buffer is not a well-formed ABI encoding of
`(address, bytes32, bool, bool)`; on every well-formed input it succeeds
and commits a result. -/
theorem guest_fails_iff_malformed (buf : List Nat) ( _hb : ∀ b ∈ buf, b < 256) :
    complianceMain buf = none ↔ ¬ isWellFormedInput buf := by
  constructor
  · intro h hwf
    obtain ⟨u, p, k, a, hu, hp, hbuf⟩ := hwf
    rw [hbuf] at h
    simp [complianceMain, abiDecodeInput_abiEncodeInput u p k a hu hp] at h
  · intro hnwf
    cases hd : abiDecodeInput buf with
    | none => simp [complianceMain, hd]
    | some t =>
        obtain ⟨u, p, k, a⟩ := t
        obtain ⟨hu, hp, hbuf⟩ := abiDecodeInput_inv buf u p k a hd
        exact absurd ⟨u, p, k, a, hu, hp, hbuf⟩ hnwf

theorem guest_fails_iff_malformed_witness :
    (∀ b ∈ ([0, 1, 2] : List Nat), b < 256) ∧
    (complianceMain [0, 1, 2] = none ↔ ¬ isWellFormedInput [0, 1, 2]) :=
  ⟨by decide, guest_fails_iff_malformed [0, 1, 2] (by decide)⟩

/-- Claim C3: for every well-formed input, the committed journal carries the
decoded `user` and `product_id` unchanged; only `allowed` is computed. -/
theorem guest_preserves_user_and_product (buf u p : List Nat) (k a : Bool)
    (h : abiDecodeInput buf = some (u, p, k, a)) :
    ∃ j, complianceMain buf = some j ∧ abiDecodeOutput j = some (u, p, k && a) := by
  obtain ⟨hu, hp, hbuf⟩ := abiDecodeInput_inv buf u p k a h
  exact ⟨abiEncodeOutput u p (k && a), by simp [complianceMain, h],
    abiDecodeOutput_abiEncodeOutput u p (k && a) hu hp⟩

theorem guest_preserves_user_and_product_witness :
    ∃ j, complianceMain (abiEncodeInput (List.replicate 20 3) (List.replicate 32 4) true true)
        = some j ∧
      abiDecodeOutput j = some (List.replicate 20 3, List.replicate 32 4, true && true) :=
  guest_preserves_user_and_product _ (List.replicate 20 3) (List.replicate 32 4) true true
    (by decide)

/-- Claim C4: ABI-encoding a tuple of a 20-byte address, a 32-byte
identifier and two booleans and decoding the result yields the original
values unchanged. -/
theorem abi_encode_decode_roundtrip (u p : List Nat) (k a : Bool)
    (hu : u.length = 20) ( _hub : ∀ b ∈ u, b < 256)
    (hp : p.length = 32) ( _hpb : ∀ b ∈ p, b < 256) :
    abiDecodeInput (abiEncodeInput u p k a) = some (u, p, k, a) :=
  abiDecodeInput_abiEncodeInput u p k a hu hp

theorem abi_encode_decode_roundtrip_witness :
    abiDecodeInput (abiEncodeInput (List.replicate 20 255) (List.replicate 32 7) false true)
      = some (List.replicate 20 255, List.replicate 32 7, false, true) :=
  abi_encode_decode_roundtrip (List.replicate 20 255) (List.replicate 32 7) false true
    (by decide) (by decide) (by decide) (by decide)

/-- Claim C9: the compliance guest is deterministic — two executions on the
same input byte buffer produce identical results: the same journal bytes,
or failure on both runs. -/
theorem guest_deterministic (buf : List Nat) (r₁ r₂ : Option (List Nat))
    (h₁ : complianceMain buf = r₁) (h₂ : complianceMain buf = r₂) : r₁ = r₂ := by
  rw [← h₁, ← h₂]

theorem guest_deterministic_witness :
    some (abiEncodeOutput (List.replicate 20 1) (List.replicate 32 2) true)
      = some (abiEncodeOutput (List.replicate 20 1) (List.replicate 32 2) true) :=
  guest_deterministic (abiEncodeInput (List.replicate 20 1) (List.replicate 32 2) true true)
    _ _ (by decide) (by decide)

/-- Claim C10: on every well-formed input the committed journal is exactly
96 bytes: three 32-byte words — the left-padded address, the product id,
and a final word of 31 zero bytes and one byte that is 0 or 1 encoding
`allowed`. -/
theorem journal_is_96_bytes_three_words (buf u p : List Nat) (k a : Bool)
    (h : abiDecodeInput buf = some (u, p, k, a)) :
    ∃ j, complianceMain buf = some j ∧
      j.length = 96 ∧
      j.take 32 = List.replicate 12 0 ++ u ∧
      (j.drop 32).take 32 = p ∧
      j.drop 64 = List.replicate 31 0 ++ [if k && a then 1 else 0] := by
  obtain ⟨hu, hp, hbuf⟩ := abiDecodeInput_inv buf u p k a h
  have h0 : ((List.replicate 12 (0 : Nat)) ++ u).length = 32 := by simp [hu]
  have hdrop32 : (abiEncodeOutput u p (k && a)).drop 32 = p ++ word32OfBool (k && a) :=
    List.drop_left' h0
  refine ⟨abiEncodeOutput u p (k && a), by simp [complianceMain, h],
    length_abiEncodeOutput u p _ hu hp, List.take_left' h0, ?_, ?_⟩
  · rw [hdrop32]
    exact List.take_left' hp
  · have hdd := List.drop_drop 32 32 (abiEncodeOutput u p (k && a))
    rw [show (32 + 32 : Nat) = 64 from rfl] at hdd
    rw [← hdd, hdrop32, List.drop_left' hp]
    rfl

theorem journal_is_96_bytes_three_words_witness :
    ∃ j, complianceMain (abiEncodeInput (List.replicate 20 9) (List.replicate 32 8) false false)
        = some j ∧
      j.length = 96 ∧
      j.take 32 = List.replicate 12 0 ++ List.replicate 20 9 ∧
      (j.drop 32).take 32 = List.replicate 32 8 ∧
      j.drop 64 = List.replicate 31 0 ++ [if false && false then 1 else 0] :=
  journal_is_96_bytes_three_words _ (List.replicate 20 9) (List.replicate 32 8) false false
    (by decide)

/-- Claim C5 is refuted by the code: even with the `--offchain` flag set the
publisher submits the request on-chain — `main` in `apps/src/main.rs` never
reads `args.offchain` and unconditionally calls `client.submit_onchain`. -/
theorem offchain_flag_still_submits_onchain :
    (Args.mk 4 "http://localhost:8545" "key" 0 none true).offchain = true ∧
    (runMain (Args.mk 4 "http://localhost:8545" "key" 0 none true)
        (Env.mk (.ok ()) (.ok (1, 100)) (.ok (Fulfillment.mk [7])) (.ok 2) (.ok 3)
          (.ok 4))).fst =
      [.buildClient, .submitOnchain (ProofRequest.mk .inlineElf (abiEncodeU256 4)),
       .waitForFulfillment 1 pollIntervalSecs 100, .sendSet 4 [7],
       .watchTx txTimeoutSecs, .getNumber] :=
  ⟨rfl, rfl⟩

/-- Claim C6: after fulfillment the publisher calls the EvenNumber
contract's `set` with exactly the locally recomputed `U256::from(args.number)`
— the same value whose ABI encoding was the guest's stdin — together with
the fulfillment's seal, and then reads the stored value back via `get`. -/
theorem set_called_with_recomputed_number_and_seal (args : Args) (env : Env)
    (rid exp txh txc stored : Nat) (f : Fulfillment)
    (hc : env.clientBuildResult = .ok ())
    (hs : env.submitResult = .ok (rid, exp))
    (hw : env.waitResult = .ok f)
    (hbr : env.broadcastResult = .ok txh)
    (hcf : env.confirmResult = .ok txc)
    (hg : env.getResult = .ok stored) :
    ∃ req : ProofRequest,
      req.stdin = abiEncodeU256 args.number ∧
      (runMain args env).fst =
        [.buildClient, .submitOnchain req,
         .waitForFulfillment rid pollIntervalSecs exp,
         .sendSet args.number f.sealBytes, .watchTx txTimeoutSecs, .getNumber] ∧
      (runMain args env).snd = .ok () := by
  cases hpu : args.programUrl with
  | none =>
      refine ⟨ProofRequest.mk .inlineElf (abiEncodeU256 args.number), rfl, ?_, ?_⟩ <;>
        simp [runMain, hc, hs, hw, hbr, hcf, hg, hpu]
  | some urlStr =>
      refine ⟨ProofRequest.mk (.url urlStr) (abiEncodeU256 args.number), rfl, ?_, ?_⟩ <;>
        simp [runMain, hc, hs, hw, hbr, hcf, hg, hpu]

theorem set_called_with_recomputed_number_and_seal_witness :
    ∃ req : ProofRequest,
      req.stdin = abiEncodeU256 6 ∧
      (runMain (Args.mk 6 "http://localhost:8545" "key" 0 none false)
          (Env.mk (.ok ()) (.ok (1, 100)) (.ok (Fulfillment.mk [9])) (.ok 2) (.ok 3)
            (.ok 6))).fst =
        [.buildClient, .submitOnchain req,
         .waitForFulfillment 1 pollIntervalSecs 100,
         .sendSet 6 [9], .watchTx txTimeoutSecs, .getNumber] ∧
      (runMain (Args.mk 6 "http://localhost:8545" "key" 0 none false)
          (Env.mk (.ok ()) (.ok (1, 100)) (.ok (Fulfillment.mk [9])) (.ok 2) (.ok 3)
            (.ok 6))).snd = .ok () :=
  set_called_with_recomputed_number_and_seal
    (Args.mk 6 "http://localhost:8545" "key" 0 none false)
    (Env.mk (.ok ()) (.ok (1, 100)) (.ok (Fulfillment.mk [9])) (.ok 2) (.ok 3) (.ok 6))
    1 100 2 3 6 (Fulfillment.mk [9]) rfl rfl rfl rfl rfl rfl

/-- Claim C7: the publisher's wait for fulfillment uses a fixed 5-second
poll interval and the request's expiry timestamp, and the (spec-modelled)
polling loop of the external client terminates with no result once expiry
passes when fulfillment never arrives — it cannot hang past expiry. -/
theorem wait_polls_every_5s_until_expiry (args : Args) (env : Env)
    (rid exp : Nat)
    (hc : env.clientBuildResult = .ok ())
    (hs : env.submitResult = .ok (rid, exp))
    (fulfilled : Nat → Option Fulfillment) (now : Nat)
    (hnever : ∀ t, fulfilled t = none) :
    PubAction.waitForFulfillment rid 5 exp ∈ (runMain args env).fst ∧
    waitLoop fulfilled exp now = none := by
  refine ⟨?_, waitLoop_none_of_never fulfilled hnever exp now⟩
  cases hw : env.waitResult <;> cases hbr : env.broadcastResult <;>
    cases hcf : env.confirmResult <;> cases hg : env.getResult <;>
      simp [runMain, hc, hs, hw, hbr, hcf, hg, pollIntervalSecs]

theorem wait_polls_every_5s_until_expiry_witness :
    PubAction.waitForFulfillment 1 5 100 ∈
      (runMain (Args.mk 4 "http://localhost:8545" "key" 0 none false)
        (Env.mk (.ok ()) (.ok (1, 100)) (.ok (Fulfillment.mk [7])) (.ok 2) (.ok 3)
          (.ok 4))).fst ∧
    waitLoop (fun _ => none) 100 0 = none :=
  wait_polls_every_5s_until_expiry
    (Args.mk 4 "http://localhost:8545" "key" 0 none false)
    (Env.mk (.ok ()) (.ok (1, 100)) (.ok (Fulfillment.mk [7])) (.ok 2) (.ok 3) (.ok 4))
    1 100 rfl rfl (fun _ => none) 0 (fun _ => rfl)

/-- Claim C8: the transaction watch uses the fixed 30-second `TX_TIMEOUT`,
and a broadcast failure (run `env1`) or a confirmation failure or timeout
(run `env2`) aborts the run with a non-zero exit whose error message names
the failed step. -/
theorem tx_timeout_30s_and_failures_fatal (args : Args) (env1 env2 : Env)
    (rid1 exp1 rid2 exp2 txh : Nat) (f1 f2 : Fulfillment) (e1 e2 : String)
    (hc1 : env1.clientBuildResult = .ok ())
    (hs1 : env1.submitResult = .ok (rid1, exp1))
    (hw1 : env1.waitResult = .ok f1)
    (hbr1 : env1.broadcastResult = .error e1)
    (hc2 : env2.clientBuildResult = .ok ())
    (hs2 : env2.submitResult = .ok (rid2, exp2))
    (hw2 : env2.waitResult = .ok f2)
    (hbr2 : env2.broadcastResult = .ok txh)
    (hcf2 : env2.confirmResult = .error e2) :
    txTimeoutSecs = 30 ∧
    ((runMain args env1).snd = .error ("failed to broadcast tx: " ++ e1) ∧
      exitCode (runMain args env1).snd ≠ 0) ∧
    (PubAction.watchTx 30 ∈ (runMain args env2).fst ∧
      (runMain args env2).snd = .error ("failed to confirm tx: " ++ e2) ∧
      exitCode (runMain args env2).snd ≠ 0) := by
  refine ⟨rfl, ⟨?_, ?_⟩, ?_, ?_, ?_⟩ <;>
    simp [runMain, exitCode, txTimeoutSecs, hc1, hs1, hw1, hbr1, hc2, hs2, hw2, hbr2, hcf2]

theorem tx_timeout_30s_and_failures_fatal_witness :
    txTimeoutSecs = 30 ∧
    ((runMain (Args.mk 4 "http://localhost:8545" "key" 0 none false)
        (Env.mk (.ok ()) (.ok (1, 100)) (.ok (Fulfillment.mk [7])) (.error "boom")
          (.ok 3) (.ok 4))).snd = .error ("failed to broadcast tx: " ++ "boom") ∧
      exitCode (runMain (Args.mk 4 "http://localhost:8545" "key" 0 none false)
        (Env.mk (.ok ()) (.ok (1, 100)) (.ok (Fulfillment.mk [7])) (.error "boom")
          (.ok 3) (.ok 4))).snd ≠ 0) ∧
    (PubAction.watchTx 30 ∈
      (runMain (Args.mk 4 "http://localhost:8545" "key" 0 none false)
        (Env.mk (.ok ()) (.ok (1, 100)) (.ok (Fulfillment.mk [7])) (.ok 2)
          (.error "timeout") (.ok 4))).fst ∧
      (runMain (Args.mk 4 "http://localhost:8545" "key" 0 none false)
        (Env.mk (.ok ()) (.ok (1, 100)) (.ok (Fulfillment.mk [7])) (.ok 2)
          (.error "timeout") (.ok 4))).snd = .error ("failed to confirm tx: " ++ "timeout") ∧
      exitCode (runMain (Args.mk 4 "http://localhost:8545" "key" 0 none false)
        (Env.mk (.ok ()) (.ok (1, 100)) (.ok (Fulfillment.mk [7])) (.ok 2)
          (.error "timeout") (.ok 4))).snd ≠ 0) :=
  tx_timeout_30s_and_failures_fatal
    (Args.mk 4 "http://localhost:8545" "key" 0 none false)
    (Env.mk (.ok ()) (.ok (1, 100)) (.ok (Fulfillment.mk [7])) (.error "boom") (.ok 3) (.ok 4))
    (Env.mk (.ok ()) (.ok (1, 100)) (.ok (Fulfillment.mk [7])) (.ok 2) (.error "timeout")
      (.ok 4))
    1 100 1 100 2 (Fulfillment.mk [7]) (Fulfillment.mk [7]) "boom" "timeout"
    rfl rfl rfl rfl rfl rfl rfl rfl rfl
